import Mathlib

/-!
Verification of the customer-lifetime-value Streamlit app
(`src/streamlit_app.py`) against its natural-language specification.

The app's pipeline is: CSV ingestion and validation
(`load_and_preprocess_data`), summarization of the transaction log into a
per-customer (frequency, recency, T) table
(`summary_data_from_transaction_data`, from the external `lifetimes`
library), model fitting (`train_model`, delegated to
`lifetimes.BetaGeoFitter`), prediction, a frequency/recency heat-map grid
(`plot_frequency_recency_heatmap`), parameter serialization
(`save_model_params` / `load_model_params`) and a zip export.

External collaborators (pandas parsing, the BG/NBD maximum-likelihood fit
and its conditional-expectation formula) are abstracted as function
parameters; everything the repository itself does is embedded directly.
Dates are modelled as day numbers (natural numbers); the derived summary
fields are integers, as the summarization works in whole days.
-/

namespace CLVApp

/-- A cell of the uploaded CSV table: either a string value or a missing
value (what pandas reads as NaN).  -/
inductive Cell where
  | val (s : String)
  | na
deriving DecidableEq

/-- The uploaded table: a list of column names and a list of rows, each row
a list of cells positionally aligned with the columns. -/
structure Table where
  columns : List String
  rows : List (List Cell)
deriving DecidableEq

/-- A cleaned transaction record: a present customer id and a successfully
parsed date (as a day number). -/
structure Txn where
  customer_id : String
  date : Nat
deriving DecidableEq

/-- The two required column names checked by `load_and_preprocess_data`
(`required_columns` in the source). -/
def required_columns : List String := ["customer_id", "date"]

/-- The schema error message raised at line 20 of the source:
`"The dataset must contain the following columns: customer_id, date"`. -/
def schemaErrMsg : String :=
  "The dataset must contain the following columns: " ++
    String.intercalate ", " required_columns

/-- The date-parse error message raised at line 24 of the source. -/
def dateParseErrMsg : String :=
  "Some date values couldn't be parsed. Please ensure all dates are in a valid format."

/-- Index of a column name in the header (`List.findIdx` returns the list
length when absent; we only use it after the schema check). -/
def colIdx (cols : List String) (c : String) : Nat :=
  cols.findIdx (· == c)

/-- Fetch the cell of a row at a column index; out-of-range reads behave
as missing values. -/
def getCell (row : List Cell) (i : Nat) : Cell :=
  row.getD i Cell.na

/-- `pd.to_datetime(cell, errors='coerce')` for one cell: a missing cell
stays missing (NaT), a string cell parses via the external date parser or
becomes NaT.  `parseDate` abstracts pandas' permissive date parsing. -/
def coerceDate (parseDate : String → Option Nat) : Cell → Option Nat
  | Cell.val s => parseDate s
  | Cell.na => none

/-- The string content of a cell, `none` when missing. -/
def cellStr : Cell → Option String
  | Cell.val s => some s
  | Cell.na => none

/-- The body of `load_and_preprocess_data` (source lines 17-27): check the
required columns, coerce the `date` column, reject the whole dataset if
any coerced date is missing, then drop rows with a missing `customer_id`
or `date` and return the cleaned transaction sequence.  An `Except.error`
models a raised `ValueError` with that message. -/
def loadValidate (parseDate : String → Option Nat) (t : Table) :
    Except String (List Txn) :=
  if ¬ required_columns.all (fun col => t.columns.contains col) then
    Except.error schemaErrMsg
  else
    let ci := colIdx t.columns "customer_id"
    let di := colIdx t.columns "date"
    let converted : List (Option String × Option Nat) :=
      t.rows.map (fun r => (cellStr (getCell r ci), coerceDate parseDate (getCell r di)))
    if converted.any (fun p => p.2.isNone) then
      Except.error dateParseErrMsg
    else
      Except.ok (converted.filterMap (fun p =>
        match p with
        | (some c, some d) => some ⟨c, d⟩
        | _ => none))

/-- `load_and_preprocess_data` as seen by `main` (lines 16-30): the `try`
body's exception is caught, displayed, and `None` is returned. -/
def load_and_preprocess_data (parseDate : String → Option Nat) (t : Table) :
    Option (List Txn) :=
  (loadValidate parseDate t).toOption

/-- The message passed to `st.error` when `load_and_preprocess_data`
catches an exception (line 29), `none` on success. -/
def loadDisplayedError (parseDate : String → Option Nat) (t : Table) :
    Option String :=
  match loadValidate parseDate t with
  | Except.error e => some ("Error loading data: " ++ e)
  | Except.ok _ => none

/-- One row of the per-customer summary table.  `frequency`, `recency` and
`T` are integers (whole days), carried as `Int` so that the spec's
non-negativity claims are substantive. -/
structure SummaryRow where
  customer_id : String
  frequency : Int
  recency : Int
  T : Int
deriving DecidableEq

/-- Smallest element of a list of day numbers (0 on the empty list; only
used on non-empty lists). -/
def listMin : List Nat → Nat
  | [] => 0
  | d :: rest => rest.foldl Nat.min d

/-- Largest element of a list of day numbers (0 on the empty list). -/
def listMax : List Nat → Nat
  | [] => 0
  | d :: rest => rest.foldl Nat.max d

/-- The dates of one customer's transactions, in input order. -/
def custDates (txns : List Txn) (c : String) : List Nat :=
  (txns.filter (fun t => t.customer_id == c)).map (fun t => t.date)

/-- Modelled from the spec: the per-customer row of
`summary_data_from_transaction_data` of the external `lifetimes` library,
which is not part of this repository.  Per the spec's summarization
contract (§3, §4.1): `frequency` is the customer's total transaction count
minus one; `recency` is the time between the customer's first and last
transaction; `T` is the time between the customer's first transaction and
the observation cutoff. -/
def summaryRowFor (txns : List Txn) (cutoff : Nat) (c : String) : SummaryRow :=
  { customer_id := c
    frequency := ((custDates txns c).length : Int) - 1
    recency := (listMax (custDates txns c) : Int) - (listMin (custDates txns c) : Int)
    T := (cutoff : Int) - (listMin (custDates txns c) : Int) }

/-- Modelled from the spec: the summary has one row per distinct customer
id present in the transaction log. -/
def summary_data_from_transaction_data (txns : List Txn) (cutoff : Nat) :
    List SummaryRow :=
  ((txns.map (fun t => t.customer_id)).dedup).map (summaryRowFor txns cutoff)

/-- The observation cutoff used by `main` (source line 105):
`sales_data['date'].max()`, the largest date in the cleaned data. -/
def observationCutoff (txns : List Txn) : Nat :=
  listMax (txns.map (fun t => t.date))

/-- The summary `main` computes at line 105, with the cutoff anchored to
the maximum date of the cleaned data. -/
def mainSummary (txns : List Txn) : List SummaryRow :=
  summary_data_from_transaction_data txns (observationCutoff txns)

/-- Day number within the (non-leap) year 2023, for January and February
dates: `2023-01-01` is day 1, `2023-02-01` is day 32. -/
def dayOf2023 (m d : Nat) : Nat := (if m = 2 then 31 else 0) + d

/-- The spec's worked scenario input
`[(C1, 2023-01-01), (C1, 2023-02-01), (C2, 2023-01-15)]`. -/
def scenarioTxns : List Txn :=
  [⟨"C1", dayOf2023 1 1⟩, ⟨"C1", dayOf2023 2 1⟩, ⟨"C2", dayOf2023 1 15⟩]

/-- The fitted model as the app sees it: the fitted parameter series
`params_` (an ordered name-to-value mapping, like a pandas `Series`) and
the `penalizer_coef` passed to the constructor.  The coefficient values
are abstracted to a type `α` since the app never computes with them. -/
structure BetaGeoFitter (α : Type) where
  params_ : List (String × α)
  penalizer_coef : α
deriving DecidableEq

/-- Insert one key/value pair into a Python dict modelled as an ordered
association list: an existing key keeps its position but takes the new
value, a new key is appended. -/
def dictInsert {α : Type} (acc : List (String × α)) (k : String) (v : α) :
    List (String × α) :=
  if acc.any (fun p => p.1 == k) then
    acc.map (fun p => if p.1 == k then (k, v) else p)
  else
    acc ++ [(k, v)]

/-- `Series.to_dict()`: fold the series items into a Python dict (later
duplicate keys overwrite earlier values, first position wins). -/
def toDict {α : Type} (l : List (String × α)) : List (String × α) :=
  l.foldl (fun acc p => dictInsert acc p.1 p.2) []

/-- The document produced by `save_model_params` (source lines 81-85): a
dict with the two keys `params` and `penalizer_coef`. -/
structure ModelParamsDoc (α : Type) where
  params : List (String × α)
  penalizer_coef : α
deriving DecidableEq

/-- `save_model_params` (source lines 81-85). -/
def save_model_params {α : Type} (bgf : BetaGeoFitter α) : ModelParamsDoc α :=
  { params := toDict bgf.params_
    penalizer_coef := bgf.penalizer_coef }

/-- `load_model_params` (source lines 87-90): construct a fitter with the
saved `penalizer_coef` and assign `params_` from the saved dict. -/
def load_model_params {α : Type} (d : ModelParamsDoc α) : BetaGeoFitter α :=
  { params_ := d.params
    penalizer_coef := d.penalizer_coef }

/-- A model prediction: the library's
`conditional_expected_number_of_purchases_up_to_time` is external, so it is
abstracted as a function `condExp` of the fitted parameters and the
(horizon, frequency, recency, T) arguments.  The app's `make_predictions`
and heat map both go through this call. -/
def modelPredict {α β γ : Type} (condExp : List (String × α) → γ → β)
    (bgf : BetaGeoFitter α) (args : γ) : β :=
  condExp bgf.params_ args

/-- A JSON value, as far as the exported `model_params.json` needs: an
object with ordered fields, or a number (coefficient values stay
abstract). -/
inductive JsonVal (α : Type) where
  | obj (fields : List (String × JsonVal α))
  | num (a : α)

/-- `json.dumps(model_params)` (source line 136): the document has exactly
the two top-level fields of the dict literal built by
`save_model_params`, in that order. -/
def docToJson {α : Type} (d : ModelParamsDoc α) : List (String × JsonVal α) :=
  [("params", JsonVal.obj (d.params.map (fun p => (p.1, JsonVal.num p.2)))),
   ("penalizer_coef", JsonVal.num d.penalizer_coef)]

/-- Largest element of a list of integers (`Series.max`; 0 on the empty
list, only used on non-empty columns). -/
def listMaxInt : List Int → Int
  | [] => 0
  | x :: rest => rest.foldl max x

/-- `max_frequency` of `plot_frequency_recency_heatmap` (source line 47):
`min(int(summary['frequency'].max()), 50)`. -/
def max_frequency (s : List SummaryRow) : Int :=
  min (listMaxInt (s.map (fun r => r.frequency))) 50

/-- `max_recency` of `plot_frequency_recency_heatmap` (source line 48):
`min(int(summary['T'].max()), 50)` — note it is computed from the `T`
column. -/
def max_recency (s : List SummaryRow) : Int :=
  min (listMaxInt (s.map (fun r => r.T))) 50

/-- One cell of the heat-map data frame (source line 56): the dict
`{'Recency': i, 'Frequency': j, 'Expected Purchases': e}`. -/
structure HeatCell (β : Type) where
  recency : Nat
  frequency : Nat
  expected : β
deriving DecidableEq

/-- The data list built by the nested loops of
`plot_frequency_recency_heatmap` (source lines 50-56): for every
`i ∈ range(max_recency+1)` and `j ∈ range(max_frequency+1)` it evaluates
the model's conditional expectation at horizon 30, frequency `j`, recency
`i`, and T equal to `max_recency` for every cell.  `condExp` abstracts the
library's `conditional_expected_number_of_purchases_up_to_time`, applied
to the fitted parameters. -/
def heatmapData {α β : Type}
    (condExp : List (String × α) → Int → Int → Int → Int → β)
    (bgf : BetaGeoFitter α) (s : List SummaryRow) : List (HeatCell β) :=
  (List.range (max_recency s + 1).toNat).flatMap (fun i =>
    (List.range (max_frequency s + 1).toNat).map (fun j =>
      { recency := i
        frequency := j
        expected := condExp bgf.params_ 30 (j : Int) (i : Int) (max_recency s) }))

/-- A cell of the exported CSV: one of the summary's integer columns or a
prediction value (kept abstract). -/
inductive CsvCell (β : Type) where
  | num (i : Int)
  | pred (b : β)
deriving DecidableEq

/-- The summary data frame as it stands after `main` line 118: indexed by
`customer_id` (the groupby key of the summarization), with the three
summary columns plus the appended `predicted_transactions` column. -/
structure SummaryFrame (σ : Type) where
  index_name : String
  index : List String
  cols : List (String × List σ)
deriving DecidableEq

/-- Build the post-prediction summary frame from the summary rows and the
per-customer predictions of `make_predictions`. -/
def summaryFrameOf {β : Type} (rows : List SummaryRow) (preds : List β) :
    SummaryFrame (CsvCell β) :=
  { index_name := "customer_id"
    index := rows.map (fun r => r.customer_id)
    cols := [("frequency", rows.map (fun r => CsvCell.num r.frequency)),
             ("recency", rows.map (fun r => CsvCell.num r.recency)),
             ("T", rows.map (fun r => CsvCell.num r.T)),
             ("predicted_transactions", preds.map CsvCell.pred)] }

/-- `DataFrame.to_csv(index=False)` (source line 132): the header row is
the column names only — the index (and its name) is omitted — and each
data row zips the columns positionally. -/
def toCsvNoIndex {σ : Type} (f : SummaryFrame σ) :
    List String × List (List σ) :=
  (f.cols.map (fun c => c.1), (f.cols.map (fun c => c.2)).transpose)

/-- An entry payload of the exported zip archive. -/
inductive ExportContent (σ α : Type) where
  | csv (header : List String) (body : List (List σ))
  | json (doc : List (String × JsonVal α))

/-- The zip archive built by `main` (source lines 130-136): exactly two
`writestr` calls, `predictions.csv` with the summary's
`to_csv(index=False)` output and `model_params.json` with the dumped
`save_model_params` document. -/
def buildExportZip {σ α : Type} (f : SummaryFrame σ) (bgf : BetaGeoFitter α) :
    List (String × ExportContent σ α) :=
  [("predictions.csv", ExportContent.csv (toCsvNoIndex f).1 (toCsvNoIndex f).2),
   ("model_params.json", ExportContent.json (docToJson (save_model_params bgf)))]

/-- Outcome of one pipeline run, as seen by the hosting framework: a
fitted model, an error surfaced to the user via `st.error`, or an
exception that escaped uncaught. -/
inductive StageOutcome (μ : Type) where
  | ok (m : μ)
  | displayedError (msg : String)
  | uncaught (exn : String)
deriving DecidableEq

/-- The ingestion → summarization → fit pipeline of `main` (source lines
98-111).  Ingestion is wrapped in try/except (errors are displayed and
`main` stops, since `sales_data is None`).  The summarization call (line
105) and `train_model` (lines 32-36) run under `st.spinner` with no
try/except, so an exception raised by the external library there —
abstracted as an `Except.error` of the `summarize`/`fit` parameters —
escapes to the framework uncaught. -/
def runPipeline {α : Type} (parseDate : String → Option Nat) (t : Table)
    (summarize : List Txn → Except String (List SummaryRow))
    (fit : List SummaryRow → Except String (BetaGeoFitter α)) :
    StageOutcome (BetaGeoFitter α) :=
  match loadValidate parseDate t with
  | Except.error e => StageOutcome.displayedError ("Error loading data: " ++ e)
  | Except.ok txns =>
    match summarize txns with
    | Except.error e => StageOutcome.uncaught e
    | Except.ok s =>
      match fit s with
      | Except.error e => StageOutcome.uncaught e
      | Except.ok m => StageOutcome.ok m

section FoldLemmas

theorem foldl_min_le_init (l : List Nat) (a : Nat) : l.foldl Nat.min a ≤ a := by
  induction l generalizing a with
  | nil => exact Nat.le_refl a
  | cons d rest ih =>
    exact Nat.le_trans (ih (Nat.min a d)) (Nat.min_le_left a d)

theorem foldl_min_le_mem (l : List Nat) (a x : Nat) (hx : x ∈ l) :
    l.foldl Nat.min a ≤ x := by
  induction l generalizing a with
  | nil => cases hx
  | cons d rest ih =>
    rcases List.mem_cons.mp hx with h | h
    · subst h
      exact Nat.le_trans (foldl_min_le_init rest (Nat.min a x)) (Nat.min_le_right a x)
    · exact ih (Nat.min a d) h

theorem foldl_min_mem (l : List Nat) (a : Nat) :
    l.foldl Nat.min a = a ∨ l.foldl Nat.min a ∈ l := by
  induction l generalizing a with
  | nil => exact Or.inl rfl
  | cons d rest ih =>
    rcases ih (Nat.min a d) with h | h
    · rcases Nat.le_total a d with hle | hle
      · have hm : Nat.min a d = a := Nat.min_eq_left hle
        exact Or.inl (by rw [List.foldl_cons, h, hm])
      · have hm : Nat.min a d = d := Nat.min_eq_right hle
        refine Or.inr ?_
        rw [List.foldl_cons, h, hm]
        exact List.mem_cons_self d rest
    · exact Or.inr (List.mem_cons_of_mem d h)

theorem init_le_foldl_max (l : List Nat) (a : Nat) : a ≤ l.foldl Nat.max a := by
  induction l generalizing a with
  | nil => exact Nat.le_refl a
  | cons d rest ih =>
    exact Nat.le_trans (Nat.le_max_left a d) (ih (Nat.max a d))

theorem mem_le_foldl_max (l : List Nat) (a x : Nat) (hx : x ∈ l) :
    x ≤ l.foldl Nat.max a := by
  induction l generalizing a with
  | nil => cases hx
  | cons d rest ih =>
    rcases List.mem_cons.mp hx with h | h
    · subst h
      exact Nat.le_trans (Nat.le_max_right a x) (init_le_foldl_max rest (Nat.max a x))
    · exact ih (Nat.max a d) h

theorem foldl_max_mem (l : List Nat) (a : Nat) :
    l.foldl Nat.max a = a ∨ l.foldl Nat.max a ∈ l := by
  induction l generalizing a with
  | nil => exact Or.inl rfl
  | cons d rest ih =>
    rcases ih (Nat.max a d) with h | h
    · rcases Nat.le_total d a with hle | hle
      · have hm : Nat.max a d = a := Nat.max_eq_left hle
        exact Or.inl (by rw [List.foldl_cons, h, hm])
      · have hm : Nat.max a d = d := Nat.max_eq_right hle
        refine Or.inr ?_
        rw [List.foldl_cons, h, hm]
        exact List.mem_cons_self d rest
    · exact Or.inr (List.mem_cons_of_mem d h)

theorem listMin_le_mem (l : List Nat) (x : Nat) (hx : x ∈ l) : listMin l ≤ x := by
  cases l with
  | nil => cases hx
  | cons d rest =>
    rcases List.mem_cons.mp hx with h | h
    · subst h; exact foldl_min_le_init rest x
    · exact foldl_min_le_mem rest d x h

theorem mem_le_listMax (l : List Nat) (x : Nat) (hx : x ∈ l) : x ≤ listMax l := by
  cases l with
  | nil => cases hx
  | cons d rest =>
    rcases List.mem_cons.mp hx with h | h
    · subst h; exact init_le_foldl_max rest x
    · exact mem_le_foldl_max rest d x h

theorem listMin_mem (l : List Nat) (hl : l ≠ []) : listMin l ∈ l := by
  cases l with
  | nil => exact absurd rfl hl
  | cons d rest =>
    show rest.foldl Nat.min d ∈ d :: rest
    rcases foldl_min_mem rest d with h | h
    · rw [h]; exact List.mem_cons_self d rest
    · exact List.mem_cons_of_mem d h

theorem listMax_mem (l : List Nat) (hl : l ≠ []) : listMax l ∈ l := by
  cases l with
  | nil => exact absurd rfl hl
  | cons d rest =>
    show rest.foldl Nat.max d ∈ d :: rest
    rcases foldl_max_mem rest d with h | h
    · rw [h]; exact List.mem_cons_self d rest
    · exact List.mem_cons_of_mem d h

end FoldLemmas

theorem mem_custDates (txns : List Txn) (c : String) (x : Nat) :
    x ∈ custDates txns c ↔ ∃ t, t ∈ txns ∧ t.customer_id = c ∧ t.date = x := by
  simp only [custDates, List.mem_map, List.mem_filter, beq_iff_eq]
  constructor
  · rintro ⟨t, ⟨ht, hc⟩, hd⟩
    exact ⟨t, ht, hc, hd⟩
  · rintro ⟨t, ht, hc, hd⟩
    exact ⟨t, ⟨ht, hc⟩, hd⟩

theorem custDates_ne_nil (txns : List Txn) (c : String)
    (h : c ∈ txns.map (fun t => t.customer_id)) : custDates txns c ≠ [] := by
  obtain ⟨t, ht, rfl⟩ := List.mem_map.mp h
  have hmem : t.date ∈ custDates txns t.customer_id :=
    (mem_custDates txns t.customer_id t.date).mpr ⟨t, ht, rfl, rfl⟩
  intro he
  rw [he] at hmem
  cases hmem

theorem custDates_le_cutoff (txns : List Txn) (c : String) (x : Nat)
    (hx : x ∈ custDates txns c) : x ≤ observationCutoff txns := by
  obtain ⟨t, ht, _, rfl⟩ := (mem_custDates txns c x).mp hx
  exact mem_le_listMax _ _ (List.mem_map.mpr ⟨t, ht, rfl⟩)

/-- C1: on the spec's worked scenario
`[(C1, 2023-01-01), (C1, 2023-02-01), (C2, 2023-01-15)]`, the observation
cutoff is the maximum date 2023-02-01, and the summary has exactly the two
rows C1 `(frequency 1, recency 31, T 31)` and C2
`(frequency 0, recency 0, T 17)`. -/
theorem scenario_summary_exact :
    observationCutoff scenarioTxns = dayOf2023 2 1 ∧
    (mainSummary scenarioTxns).length = 2 ∧
    mainSummary scenarioTxns =
      [{ customer_id := "C1", frequency := 1, recency := 31, T := 31 },
       { customer_id := "C2", frequency := 0, recency := 0, T := 17 }] := by
  refine ⟨by decide, by decide, by decide⟩

/-- C2: for every non-empty cleaned transaction log, every row of the
summary computed by `main` satisfies `recency ≤ T`, `frequency ≥ 0`,
`recency ≥ 0` and `T ≥ 0`. -/
theorem summary_row_invariants (txns : List Txn) (_hne : txns ≠ [])
    (row : SummaryRow) (hrow : row ∈ mainSummary txns) :
    row.recency ≤ row.T ∧ 0 ≤ row.frequency ∧ 0 ≤ row.recency ∧ 0 ≤ row.T := by
  simp only [mainSummary, summary_data_from_transaction_data] at hrow
  obtain ⟨c, hc, rfl⟩ := List.mem_map.mp hrow
  have hc' : c ∈ txns.map (fun t => t.customer_id) := List.mem_dedup.mp hc
  have hdnil : custDates txns c ≠ [] := custDates_ne_nil txns c hc'
  have hmaxmem : listMax (custDates txns c) ∈ custDates txns c :=
    listMax_mem _ hdnil
  have h1 : listMin (custDates txns c) ≤ listMax (custDates txns c) :=
    listMin_le_mem _ _ hmaxmem
  have h2 : listMax (custDates txns c) ≤ observationCutoff txns :=
    custDates_le_cutoff txns c _ hmaxmem
  have h4 : 1 ≤ (custDates txns c).length := List.length_pos.mpr hdnil
  simp only [summaryRowFor]
  refine ⟨?_, ?_, ?_, ?_⟩ <;> omega

/-- C2 witness: the invariants instantiated on the worked scenario's C1
row. -/
theorem summary_row_invariants_witness :
    ({ customer_id := "C1", frequency := 1, recency := 31, T := 31 } :
        SummaryRow).recency ≤
      ({ customer_id := "C1", frequency := 1, recency := 31, T := 31 } :
        SummaryRow).T ∧
    0 ≤ ({ customer_id := "C1", frequency := 1, recency := 31, T := 31 } :
        SummaryRow).frequency ∧
    0 ≤ ({ customer_id := "C1", frequency := 1, recency := 31, T := 31 } :
        SummaryRow).recency ∧
    0 ≤ ({ customer_id := "C1", frequency := 1, recency := 31, T := 31 } :
        SummaryRow).T :=
  summary_row_invariants scenarioTxns (by decide) _ (by decide)

/-- C3: a customer with exactly one transaction in the cleaned log gets
`frequency = 0`, `recency = 0`, and `T` equal to the observation cutoff
minus that transaction's date. -/
theorem single_transaction_customer (txns : List Txn) (c : String) (t0 : Txn)
    (hft : txns.filter (fun t => t.customer_id == c) = [t0])
    (row : SummaryRow) (hrow : row ∈ mainSummary txns)
    (hcid : row.customer_id = c) :
    row.frequency = 0 ∧ row.recency = 0 ∧
      row.T = (observationCutoff txns : Int) - (t0.date : Int) := by
  simp only [mainSummary, summary_data_from_transaction_data] at hrow
  obtain ⟨c', _, rfl⟩ := List.mem_map.mp hrow
  have hcc : c' = c := hcid
  subst hcc
  have hds : custDates txns c' = [t0.date] := by
    rw [custDates, hft]
    rfl
  simp only [summaryRowFor, hds]
  refine ⟨by simp, ?_, rfl⟩
  show (listMax [t0.date] : Int) - (listMin [t0.date] : Int) = 0
  simp [listMax, listMin]

/-- C3 witness: on the worked scenario, customer C2 has the single
transaction `(C2, 2023-01-15)` and its summary row is
`(frequency 0, recency 0, T 32 - 15 = 17)`. -/
theorem single_transaction_customer_witness :
    ({ customer_id := "C2", frequency := 0, recency := 0, T := 17 } :
        SummaryRow).frequency = 0 ∧
    ({ customer_id := "C2", frequency := 0, recency := 0, T := 17 } :
        SummaryRow).recency = 0 ∧
    ({ customer_id := "C2", frequency := 0, recency := 0, T := 17 } :
        SummaryRow).T =
      (observationCutoff scenarioTxns : Int) - ((15 : Nat) : Int) :=
  single_transaction_customer scenarioTxns "C2" ⟨"C2", 15⟩ (by decide) _
    (by decide) rfl

/-- Character-list prefix test, for the substring check below. -/
def matchesAt : List Char → List Char → Bool
  | [], _ => true
  | _ :: _, [] => false
  | a :: as, b :: bs => a == b && matchesAt as bs

/-- Does `needle` occur contiguously inside the haystack? -/
def containsChars (needle : List Char) : List Char → Bool
  | [] => matchesAt needle []
  | b :: bs => matchesAt needle (b :: bs) || containsChars needle bs

/-- `sub` occurs as a substring of `s`. -/
def strContains (s sub : String) : Bool :=
  containsChars sub.toList s.toList

/-- A concrete stand-in for pandas' date parsing, used to instantiate the
abstract `parseDate` parameter in witnesses: it recognises the three dates
of the spec's worked scenario. -/
def stubParseDate : String → Option Nat := fun s =>
  if s == "2023-01-01" then some (dayOf2023 1 1)
  else if s == "2023-02-01" then some (dayOf2023 2 1)
  else if s == "2023-01-15" then some (dayOf2023 1 15)
  else none

/-- C4: a table lacking `customer_id` or `date` is rejected with the
schema error, whose message names the missing column(s), and no cleaned
transaction sequence is returned (`load_and_preprocess_data` yields
`none`). -/
theorem missing_column_rejected (parseDate : String → Option Nat) (t : Table)
    (hmiss : ¬ ∀ c ∈ required_columns, c ∈ t.columns) :
    loadValidate parseDate t = Except.error schemaErrMsg ∧
    load_and_preprocess_data parseDate t = none ∧
    ∀ c ∈ required_columns, c ∉ t.columns → strContains schemaErrMsg c = true := by
  have hcond : ¬ (required_columns.all (fun col => t.columns.contains col) = true) := by
    intro hall
    exact hmiss (fun c hc => by
      have := List.all_eq_true.mp hall c hc
      simpa using this)
  have h1 : loadValidate parseDate t = Except.error schemaErrMsg := by
    simp only [loadValidate]
    rw [if_pos hcond]
  refine ⟨h1, ?_, ?_⟩
  · simp [load_and_preprocess_data, h1, Except.toOption]
  · intro c hc _
    rcases List.mem_cons.mp hc with h | h
    · subst h; decide
    · rcases List.mem_cons.mp h with h' | h'
      · subst h'; decide
      · cases h'

/-- C4 witness: a table whose only column is `customer_id` (no `date`) is
rejected with the schema error and produces no cleaned sequence. -/
theorem missing_column_rejected_witness :
    loadValidate stubParseDate ⟨["customer_id"], [[Cell.val "A"]]⟩ =
      Except.error schemaErrMsg ∧
    load_and_preprocess_data stubParseDate ⟨["customer_id"], [[Cell.val "A"]]⟩ =
      none ∧
    ∀ c ∈ required_columns,
      c ∉ (⟨["customer_id"], [[Cell.val "A"]]⟩ : Table).columns →
        strContains schemaErrMsg c = true :=
  missing_column_rejected stubParseDate ⟨["customer_id"], [[Cell.val "A"]]⟩
    (by decide)

/-- C5: for a table with both required columns, ingestion raises the
date-parse error exactly when some row's `date` cell fails to coerce to a
date — the whole dataset is rejected on one bad cell, and no date-parse
error arises when every cell coerces. -/
theorem date_parse_all_or_nothing (parseDate : String → Option Nat) (t : Table)
    (hcols : ∀ c ∈ required_columns, c ∈ t.columns) :
    loadValidate parseDate t = Except.error dateParseErrMsg ↔
      ∃ r ∈ t.rows,
        coerceDate parseDate (getCell r (colIdx t.columns "date")) = none := by
  have hall : required_columns.all (fun col => t.columns.contains col) = true :=
    List.all_eq_true.mpr (fun c hc => by
      have := hcols c hc
      simpa using this)
  simp only [loadValidate]
  rw [if_neg (not_not_intro hall)]
  by_cases hany : (t.rows.map (fun r =>
      (cellStr (getCell r (colIdx t.columns "customer_id")),
        coerceDate parseDate (getCell r (colIdx t.columns "date"))))).any
      (fun p => p.2.isNone) = true
  · rw [if_pos hany]
    simp only [true_iff]
    obtain ⟨p, hp, hnone⟩ := List.any_eq_true.mp hany
    obtain ⟨r, hr, rfl⟩ := List.mem_map.mp hp
    exact ⟨r, hr, Option.isNone_iff_eq_none.mp hnone⟩
  · rw [if_neg hany]
    constructor
    · intro h
      cases h
    · rintro ⟨r, hr, hnone⟩
      exact absurd (List.any_eq_true.mpr
        ⟨_, List.mem_map.mpr ⟨r, hr, rfl⟩, by simp [hnone]⟩) hany

/-- C5 witness: with both columns present, one unparseable date cell makes
ingestion reject the whole table with the date-parse error. -/
theorem date_parse_all_or_nothing_witness :
    loadValidate stubParseDate
      ⟨["customer_id", "date"],
       [[Cell.val "A", Cell.val "2023-01-01"],
        [Cell.val "B", Cell.val "not-a-date"]]⟩ =
      Except.error dateParseErrMsg :=
  (date_parse_all_or_nothing stubParseDate
      ⟨["customer_id", "date"],
       [[Cell.val "A", Cell.val "2023-01-01"],
        [Cell.val "B", Cell.val "not-a-date"]]⟩ (by decide)).mpr
    ⟨[Cell.val "B", Cell.val "not-a-date"], by decide, by decide⟩

/-- C6 (code defect): a table that passes the schema and date-parse checks
but whose every row is dropped by the cleanup is returned successfully as
an empty cleaned sequence — `load_and_preprocess_data` (source lines
26-30) has no emptiness check, so no error is reported and the empty data
flows on to summarization and fitting, contrary to the spec's requirement
to fail. -/
theorem empty_after_cleanup_not_rejected :
    loadValidate stubParseDate
      ⟨["customer_id", "date"], [[Cell.na, Cell.val "2023-01-01"]]⟩ =
      Except.ok [] ∧
    load_and_preprocess_data stubParseDate
      ⟨["customer_id", "date"], [[Cell.na, Cell.val "2023-01-01"]]⟩ =
      some [] ∧
    loadDisplayedError stubParseDate
      ⟨["customer_id", "date"], [[Cell.na, Cell.val "2023-01-01"]]⟩ = none := by
  refine ⟨rfl, rfl, rfl⟩

theorem dictInsert_of_fresh {α : Type} (acc : List (String × α)) (k : String)
    (v : α) (hk : acc.any (fun p => p.1 == k) = false) :
    dictInsert acc k v = acc ++ [(k, v)] := by
  simp only [dictInsert, hk]
  rfl

theorem foldl_dictInsert_append {α : Type} (l acc : List (String × α))
    (hd : ∀ p ∈ acc, ∀ q ∈ l, p.1 ≠ q.1)
    (h : (l.map Prod.fst).Nodup) :
    l.foldl (fun acc p => dictInsert acc p.1 p.2) acc = acc ++ l := by
  induction l generalizing acc with
  | nil => simp
  | cons q rest ih =>
    have hfresh : acc.any (fun p => p.1 == q.1) = false := by
      rw [List.any_eq_false]
      intro p hp
      simpa using hd p hp q (List.mem_cons_self q rest)
    have hnodup' : (rest.map Prod.fst).Nodup := (List.nodup_cons.mp h).2
    have hqnot : q.1 ∉ rest.map Prod.fst := (List.nodup_cons.mp h).1
    rw [List.foldl_cons, dictInsert_of_fresh acc q.1 q.2 hfresh]
    rw [ih (acc ++ [q]) ?_ hnodup']
    · simp
    · intro p hp r hr
      rcases List.mem_append.mp hp with hp' | hp'
      · exact hd p hp' r (List.mem_cons_of_mem q hr)
      · have : p = q := by simpa using hp'
        subst this
        intro hEq
        exact hqnot (hEq ▸ List.mem_map.mpr ⟨r, hr, rfl⟩)

theorem toDict_eq_self {α : Type} (l : List (String × α))
    (h : (l.map Prod.fst).Nodup) : toDict l = l := by
  have := foldl_dictInsert_append l [] (by intro p hp; cases hp) h
  simpa [toDict] using this

/-- C7: saving a fitted model's parameters and penalizer coefficient with
`save_model_params` and reloading the document with `load_model_params`
reproduces the model exactly (same named coefficients, same
`penalizer_coef`), so every prediction — any function of the fitted
parameters applied to any (frequency, recency, T, horizon) input — is
unchanged.  The only assumption is that the fitted parameter names are
distinct (true of the BG/NBD parameters r, alpha, a, b), since
`Series.to_dict()` would collapse duplicate names. -/
theorem save_load_round_trip {α : Type} (bgf : BetaGeoFitter α)
    (hnodup : (bgf.params_.map Prod.fst).Nodup) :
    load_model_params (save_model_params bgf) = bgf ∧
    ∀ (γ β : Type) (condExp : List (String × α) → γ → β) (args : γ),
      modelPredict condExp (load_model_params (save_model_params bgf)) args =
        modelPredict condExp bgf args := by
  have hload : load_model_params (save_model_params bgf) = bgf := by
    simp only [load_model_params, save_model_params, toDict_eq_self _ hnodup]
  exact ⟨hload, fun γ β condExp args => by rw [hload]⟩

/-- The BG/NBD parameter vector (r, alpha, a, b) used to witness the
round-trip theorem, with integer stand-ins for the fitted values. -/
def sampleFit : BetaGeoFitter Int :=
  { params_ := [("r", 1), ("alpha", 2), ("a", 3), ("b", 4)]
    penalizer_coef := 0 }

/-- A concrete prediction function of the fitted parameters, standing in
for the library's conditional-expectation formula in the witness. -/
def sampleCondExp : List (String × Int) → (Int × Int × Int × Int) → Int :=
  fun ps args => (ps.map (fun p => p.2)).foldl (· + ·) 0 + args.1

/-- C7 witness: the round trip on a concrete four-coefficient model, with
a concrete prediction evaluated at (frequency, recency, T, horizon) =
(2, 3, 4, 30). -/
theorem save_load_round_trip_witness :
    load_model_params (save_model_params sampleFit) = sampleFit ∧
    modelPredict sampleCondExp (load_model_params (save_model_params sampleFit))
        (2, 3, 4, 30) =
      modelPredict sampleCondExp sampleFit (2, 3, 4, 30) :=
  ⟨(save_load_round_trip sampleFit (by decide)).1,
   (save_load_round_trip sampleFit (by decide)).2 _ _ sampleCondExp (2, 3, 4, 30)⟩

/-- C8 counterexample: on the worked scenario's summary (with a concrete
prediction column), the exported `predictions.csv` header is
`frequency, recency, T, predicted_transactions` and does **not** contain a
`customer_id` column: the summary is indexed by `customer_id` and
`to_csv(index=False)` (source line 132) drops the index. -/
theorem export_csv_missing_customer_id :
    (toCsvNoIndex (summaryFrameOf (mainSummary scenarioTxns)
        [(10 : Int), 20])).1 =
      ["frequency", "recency", "T", "predicted_transactions"] ∧
    "customer_id" ∉
      (toCsvNoIndex (summaryFrameOf (mainSummary scenarioTxns)
        [(10 : Int), 20])).1 := by
  refine ⟨by decide, by decide⟩

/-- C8 amended: for every post-prediction summary frame and fitted model,
the exported zip has exactly the entries `predictions.csv` and
`model_params.json`; `predictions.csv` has exactly the columns
`frequency, recency, T, predicted_transactions` — the customer identifier
is the frame's index and is dropped by `to_csv(index=False)` — and
`model_params.json` has exactly the top-level fields `params` and
`penalizer_coef`. -/
theorem export_bundle_shape {α β : Type} (rows : List SummaryRow)
    (preds : List β) (bgf : BetaGeoFitter α) :
    (buildExportZip (summaryFrameOf rows preds) bgf).map Prod.fst =
      ["predictions.csv", "model_params.json"] ∧
    (toCsvNoIndex (summaryFrameOf rows preds)).1 =
      ["frequency", "recency", "T", "predicted_transactions"] ∧
    "customer_id" ∉ (toCsvNoIndex (summaryFrameOf rows preds)).1 ∧
    (summaryFrameOf rows preds).index_name = "customer_id" ∧
    (summaryFrameOf rows preds).index = rows.map (fun r => r.customer_id) ∧
    (docToJson (save_model_params bgf)).map Prod.fst =
      ["params", "penalizer_coef"] := by
  refine ⟨rfl, rfl, ?_, rfl, rfl, rfl⟩
  simp [toCsvNoIndex, summaryFrameOf]

/-- C9: the heat-map data enumerates exactly the integer grid
`recency ∈ [0, min(max T, 50)] × frequency ∈ [0, min(max frequency, 50)]`
with inclusive bounds, and every cell's value is the model's conditional
expectation at horizon 30 with the dataset-wide capped maximum
`max_recency` as the T input — not a per-cell or per-customer T. -/
theorem heatmap_grid_characterization {α β : Type}
    (condExp : List (String × α) → Int → Int → Int → Int → β)
    (bgf : BetaGeoFitter α) (s : List SummaryRow)
    (h1 : 0 ≤ max_recency s) (h2 : 0 ≤ max_frequency s) :
    ∀ (i j : Nat) (v : β),
      (⟨i, j, v⟩ : HeatCell β) ∈ heatmapData condExp bgf s ↔
        (i : Int) ≤ max_recency s ∧ (j : Int) ≤ max_frequency s ∧
          v = condExp bgf.params_ 30 (j : Int) (i : Int) (max_recency s) := by
  intro i j v
  simp only [heatmapData, List.mem_flatMap, List.mem_map, List.mem_range,
    HeatCell.mk.injEq]
  constructor
  · rintro ⟨i', hi', j', hj', rfl, rfl, rfl⟩
    refine ⟨by omega, by omega, rfl⟩
  · rintro ⟨hi, hj, rfl⟩
    exact ⟨i, by omega, j, by omega, rfl, rfl, rfl⟩

/-- A concrete prediction function of the fitted parameters with the heat
map's argument shape (horizon, frequency, recency, T), used in the C9
witness. -/
def sampleHeatCondExp : List (String × Int) → Int → Int → Int → Int → Int :=
  fun ps t j i bigT => t + j + i + bigT + (ps.length : Int)

/-- C9 witness: on the worked scenario's summary (`max_recency = 31`,
`max_frequency = 1`), the cell (recency 2, frequency 1) is in the grid and
carries the conditional expectation at horizon 30 with T = 31. -/
theorem heatmap_grid_characterization_witness :
    (⟨2, 1, sampleHeatCondExp sampleFit.params_ 30 1 2
        (max_recency (mainSummary scenarioTxns))⟩ : HeatCell Int) ∈
      heatmapData sampleHeatCondExp sampleFit (mainSummary scenarioTxns) :=
  (heatmap_grid_characterization sampleHeatCondExp sampleFit
      (mainSummary scenarioTxns) (by decide) (by decide) 2 1 _).mpr
    ⟨by decide, by decide, rfl⟩

/-- C10 counterexample: with a well-formed upload and a fit that raises
(as the external optimizer can on degenerate data), the pipeline outcome
is an uncaught exception, not a surfaced user message: `train_model`
(source lines 32-36) has no try/except around `bgf.fit`. -/
theorem fit_error_escapes_uncaught :
    runPipeline stubParseDate
      ⟨["customer_id", "date"], [[Cell.val "A", Cell.val "2023-01-01"]]⟩
      (fun txns => Except.ok (mainSummary txns))
      (fun _ => (Except.error "ConvergenceError: fit failed" :
        Except String (BetaGeoFitter Int))) =
      StageOutcome.uncaught "ConvergenceError: fit failed" := by
  rfl

/-- C10 amended: only the ingestion stage catches its errors and surfaces
them via a displayed message; an error raised in the summarization call
(source line 105) or in the fit (source lines 32-36) propagates to the
hosting framework uncaught. -/
theorem pipeline_error_propagation {α : Type} (parseDate : String → Option Nat)
    (t : Table) (summarize : List Txn → Except String (List SummaryRow))
    (fit : List SummaryRow → Except String (BetaGeoFitter α)) :
    (∀ e, loadValidate parseDate t = Except.error e →
      runPipeline parseDate t summarize fit =
        StageOutcome.displayedError ("Error loading data: " ++ e)) ∧
    (∀ txns e, loadValidate parseDate t = Except.ok txns →
      summarize txns = Except.error e →
      runPipeline parseDate t summarize fit = StageOutcome.uncaught e) ∧
    (∀ txns s e, loadValidate parseDate t = Except.ok txns →
      summarize txns = Except.ok s → fit s = Except.error e →
      runPipeline parseDate t summarize fit = StageOutcome.uncaught e) := by
  refine ⟨?_, ?_, ?_⟩
  · intro e he
    simp only [runPipeline, he]
  · intro txns e hok hsum
    simp only [runPipeline, hok, hsum]
  · intro txns s e hok hsum hfit
    simp only [runPipeline, hok, hsum, hfit]

/-- C10 amended witness: a summarization error on a concrete valid upload
surfaces as an uncaught exception. -/
theorem pipeline_error_propagation_witness :
    runPipeline stubParseDate
      ⟨["customer_id", "date"], [[Cell.val "A", Cell.val "2023-01-01"]]⟩
      (fun _ => Except.error "SummarizeError")
      (fun _ => Except.ok (⟨[], 0⟩ : BetaGeoFitter Int)) =
      StageOutcome.uncaught "SummarizeError" :=
  (pipeline_error_propagation stubParseDate
      ⟨["customer_id", "date"], [[Cell.val "A", Cell.val "2023-01-01"]]⟩
      (fun _ => Except.error "SummarizeError")
      (fun _ => Except.ok (⟨[], 0⟩ : BetaGeoFitter Int))).2.1
    [⟨"A", dayOf2023 1 1⟩] "SummarizeError" rfl rfl

end CLVApp
